import Mathlib

/-!
Shallow embedding of the insight computations of `insights.py` from the
NFL_FANTASY_GAME repository, together with theorems settling the frozen
claims about them.

Conventions of the embedding:
* A pandas DataFrame of weekly observations is a `List Obs`; a column is a
  field of `Obs`.  Numeric values are rationals (`ℚ`): the claims are about
  the arithmetic recipes, so numeric literals such as `0.7` are embedded as
  the exact rationals they denote.
* A pandas float cell that can also hold `NaN` (e.g. the result of `mean`
  over an empty selection, or `std` over a single row) is an `Option ℚ`,
  with `none` playing the role of `NaN`.
* Where IEEE division by zero matters (the year-over-year percentage
  column), values live in `PVal`, which models a float as either a finite
  rational, `+inf`, `-inf` or `NaN`, with division and comparisons following
  IEEE/numpy semantics on those values.
* pandas `std` uses the sample convention (ddof = 1) and its result is the
  square root of the sample variance; since square roots of rationals are
  irrational in general, aggregate rows carry the sample variance
  (`var_points`), which is missing (`none`) exactly when pandas `std` is
  `NaN` and zero exactly when pandas `std` is `0`.
-/

namespace NFLInsights

/-- One row of the weekly observation table (the columns the insight
functions of `insights.py` read). -/
structure Obs where
  player_id : String
  player_display_name : String
  position : String
  season : Int
  week : Int
  fantasy_points_ppr : ℚ
deriving Repr, DecidableEq

/-- Model of an IEEE float value as produced by numpy arithmetic on the
columns we track: a finite rational, an infinity, or `NaN`. -/
inductive PVal where
  | val : ℚ → PVal
  | pinf : PVal
  | ninf : PVal
  | nan : PVal
deriving Repr, DecidableEq

/-- Float division `a / b` for rationals `a b`, with numpy semantics at
`b = 0`: `+inf` for positive `a`, `-inf` for negative `a`, `NaN` for
`a = 0`. -/
def fdiv (a b : ℚ) : PVal :=
  if b ≠ 0 then .val (a / b)
  else if 0 < a then .pinf
  else if a < 0 then .ninf
  else .nan

/-- Multiplication of a float value by a positive rational constant
(used only with the constant `100`). -/
def PVal.mulPos : PVal → ℚ → PVal
  | .val q, c => .val (q * c)
  | .pinf, _ => .pinf
  | .ninf, _ => .ninf
  | .nan, _ => .nan

/-- IEEE comparison `v > c` for a float value against a rational constant:
`NaN` compares false. -/
def PVal.gtQ : PVal → ℚ → Bool
  | .val q, c => decide (c < q)
  | .pinf, _ => true
  | .ninf, _ => false
  | .nan, _ => false

/-- IEEE comparison `v < c` for a float value against a rational constant:
`NaN` compares false. -/
def PVal.ltQ : PVal → ℚ → Bool
  | .val q, c => decide (q < c)
  | .pinf, _ => false
  | .ninf, _ => true
  | .nan, _ => false

/-- Is the float value `NaN`? -/
def PVal.isNan : PVal → Bool
  | .nan => true
  | _ => false

/-- A total descending-sort comparator on float values: `a` ranks at least
as high as `b`.  `NaN` is ranked last; the sorts using this comparator only
ever see `NaN`-free lists. -/
def pvalGeB : PVal → PVal → Bool
  | _, .nan => true
  | .nan, _ => false
  | _, .ninf => true
  | .ninf, _ => false
  | .pinf, _ => true
  | .val _, .pinf => false
  | .val a, .val b => decide (b ≤ a)

/-- Sum of a list of rationals (pandas `sum`). -/
def qsum (l : List ℚ) : ℚ := l.foldr (fun a b => a + b) 0

/-- pandas `mean`: `NaN` (here `none`) on an empty selection. -/
def listMean (l : List ℚ) : Option ℚ :=
  if l.isEmpty then none else some (qsum l / l.length)

/-- pandas `std` squared, i.e. the sample variance with the `n - 1`
denominator (ddof = 1): missing (`none`) for groups of size ≤ 1, exactly
when pandas `std` is `NaN`. -/
def sampleVar (l : List ℚ) : Option ℚ :=
  if l.length ≤ 1 then none
  else some (qsum (l.map (fun x => (x - qsum l / l.length) ^ 2)) / ((l.length : ℚ) - 1))

/-! ## Rookie Classifier (`calculate_rookie_insights`, insights.py lines 11-49) -/

/-- The `season` values of all rows of player `pid`
(`df.groupby('player_id')['season']` restricted to one group). -/
def playerSeasons (df : List Obs) (pid : String) : List Int :=
  (df.filter (fun o => o.player_id == pid)).map (fun o => o.season)

/-- `df.groupby('player_id')['season'].min()` for one player: the player's
first observed season (`rookie_season` after the merge). -/
def rookieSeason (df : List Obs) (pid : String) : Option Int :=
  (playerSeasons df pid).min?

/-- `is_rookie` flag of one observation after the merge:
`df_with_rookie['season'] == df_with_rookie['rookie_season']`. -/
def isRookie (df : List Obs) (o : Obs) : Bool :=
  rookieSeason df o.player_id == some o.season

/-- `pos_data[pos_data['is_rookie']]` for one position. -/
def rookiePosRows (df : List Obs) (pos : String) : List Obs :=
  df.filter (fun o => o.position == pos && isRookie df o)

/-- `pos_data[~pos_data['is_rookie']]` for one position. -/
def veteranPosRows (df : List Obs) (pos : String) : List Obs :=
  df.filter (fun o => o.position == pos && !isRookie df o)

/-- `rookie_avg = pos_data[pos_data['is_rookie']]['fantasy_points_ppr'].mean()`. -/
def rookieAvg (df : List Obs) (pos : String) : Option ℚ :=
  listMean ((rookiePosRows df pos).map (fun o => o.fantasy_points_ppr))

/-- `veteran_avg = pos_data[~pos_data['is_rookie']]['fantasy_points_ppr'].mean()`. -/
def veteranAvg (df : List Obs) (pos : String) : Option ℚ :=
  listMean ((veteranPosRows df pos).map (fun o => o.fantasy_points_ppr))

/-- `gap_percentage` of `calculate_rookie_insights` (insights.py line 42):
`((veteran_avg - rookie_avg) / veteran_avg * 100) if veteran_avg > 0 else 0`.
A `NaN` veteran average fails the `> 0` test, so the `else 0` branch also
covers it; a `NaN` rookie average propagates through the subtraction. -/
def gapPercentage (df : List Obs) (pos : String) : Option ℚ :=
  match veteranAvg df pos with
  | some v =>
      if 0 < v then (rookieAvg df pos).map (fun r => (v - r) / v * 100)
      else some 0
  | none => some 0

/-! ## Aggregator (`calculate_consistency_insights`, insights.py lines 51-94) -/

/-- `df[df['position'] == position]`. -/
def posRows (df : List Obs) (pos : String) : List Obs :=
  df.filter (fun o => o.position == pos)

/-- The distinct `player_display_name` values of a row list, in first
occurrence order (the groupby keys). -/
def displayNames (l : List Obs) : List String :=
  (l.map (fun o => o.player_display_name)).dedup

/-- The rows of one display-name group. -/
def nameRows (l : List Obs) (nm : String) : List Obs :=
  l.filter (fun o => o.player_display_name == nm)

/-- One row of `player_consistency` (insights.py lines 60-64): the groupby
aggregation `{'fantasy_points_ppr': ['mean', 'std', 'count', 'min', 'max']}`
by display name.  `var_points` is the square of the pandas `std_points`
column (see the header comment): missing exactly when `std_points` is. -/
structure ConsRow where
  player : String
  avg_points : Option ℚ
  var_points : Option ℚ
  games : ℕ
  min_points : Option ℚ
  max_points : Option ℚ
deriving Repr, DecidableEq

/-- `player_consistency` for one position: one aggregate row per distinct
display name among that position's rows. -/
def playerConsistency (df : List Obs) (pos : String) : List ConsRow :=
  (displayNames (posRows df pos)).map (fun nm =>
    let pts := (nameRows (posRows df pos) nm).map (fun o => o.fantasy_points_ppr)
    ⟨nm, listMean pts, sampleVar pts, pts.length, pts.min?, pts.max?⟩)

/-! ## Recommendation Scorer (`generate_draft_recommendations`,
insights.py lines 242-280) -/

/-- `recent_data = df[df['season'].isin([current_season - 2, current_season - 1,
current_season])]`. -/
def recentData (df : List Obs) (currentSeason : Int) : List Obs :=
  df.filter (fun o =>
    o.season == currentSeason - 2 || o.season == currentSeason - 1 || o.season == currentSeason)

/-- One row of `player_metrics` (insights.py lines 254-259): the per-name
aggregation `{'fantasy_points_ppr': ['mean', 'std', 'sum'], 'season': 'count'}`.
Note that `'season': 'count'` counts the group's rows (weekly observations),
so the column labelled `seasons_played` is actually a row count. -/
structure MetricsRow where
  player : String
  avg_ppg : Option ℚ
  var_ppg : Option ℚ
  total_points : ℚ
  seasons_played : ℕ
deriving Repr, DecidableEq

/-- `player_metrics` for one position over the trailing three-season
window. -/
def playerMetrics (df : List Obs) (currentSeason : Int) (pos : String) : List MetricsRow :=
  (displayNames (posRows (recentData df currentSeason) pos)).map (fun nm =>
    let pts := (nameRows (posRows (recentData df currentSeason) pos) nm).map
      (fun o => o.fantasy_points_ppr)
    ⟨nm, listMean pts, sampleVar pts, qsum pts, pts.length⟩)

/-- `experienced_players = player_metrics[player_metrics['seasons_played'] >= 2]`
(insights.py line 262). -/
def experiencedPlayers (df : List Obs) (currentSeason : Int) (pos : String) : List MetricsRow :=
  (playerMetrics df currentSeason pos).filter (fun m => 2 ≤ m.seasons_played)

/-- The number of distinct seasons a display name actually has inside the
trailing window (what the column name `seasons_played` and the comment
"pelo menos 2 temporadas" in the source announce). -/
def distinctSeasonsInWindow (df : List Obs) (currentSeason : Int) (pos nm : String) : ℕ :=
  ((nameRows (posRows (recentData df currentSeason) pos) nm).map (fun o => o.season)).dedup.length

/-- Input of the scoring stage of `generate_draft_recommendations`: one
qualifying player's aggregated mean and standard deviation.  The numeric
standard deviation is a parameter here because pandas computes it as an
(in general irrational) square root; the scorer consumes it as a plain
number. -/
structure MetricsIn where
  player : String
  avg_ppg : ℚ
  std_ppg : ℚ
  seasons_played : ℕ
deriving Repr, DecidableEq

/-- Output row of the scoring stage: `consistency_score` and `draft_score`
columns added by insights.py lines 266-267. -/
structure ScoredRow where
  player : String
  avg_ppg : ℚ
  std_ppg : ℚ
  consistency_score : ℚ
  draft_score : ℚ
deriving Repr, DecidableEq

/-- The scoring stage (insights.py lines 262, 266-267): filter to rows with
`seasons_played >= 2`, then
`consistency_score = avg_ppg / (std_ppg + 1)` and
`draft_score = avg_ppg * 0.7 + consistency_score * 0.3`. -/
def scoreExperienced (ms : List MetricsIn) : List ScoredRow :=
  (ms.filter (fun m => 2 ≤ m.seasons_played)).map (fun m =>
    let cons := m.avg_ppg / (m.std_ppg + 1)
    ⟨m.player, m.avg_ppg, m.std_ppg, cons, m.avg_ppg * (7 / 10) + cons * (3 / 10)⟩)

/-! ## Trend Detector (`calculate_breakout_insights`, insights.py lines 96-152)

The source sorts the per-(player, name, position, season) totals by
`(player_id, season)` and takes `shift(1)` inside each `player_id` group; a
stable global sort restricted to one `player_id` group is exactly that
group's keys stably sorted by season, so the table of valid year-over-year
changes is built here player by player: consecutive pairs of each player's
season-sorted group keys. -/

/-- The groupby key of `player_season_stats`:
`(player_id, player_display_name, position, season)`. -/
def keyOf (o : Obs) : String × String × String × Int :=
  (o.player_id, o.player_display_name, o.position, o.season)

/-- Number of distinct seasons of a player:
`df.groupby('player_id')['season'].nunique()` for one group. -/
def seasonCount (df : List Obs) (pid : String) : ℕ :=
  (playerSeasons df pid).dedup.length

/-- `multi_season_data = df[df['player_id'].isin(multi_season_players)]`:
the rows of players with at least two distinct seasons. -/
def multiSeasonData (df : List Obs) : List Obs :=
  df.filter (fun o => 2 ≤ seasonCount df o.player_id)

/-- The distinct group keys of one player inside `multi_season_data`. -/
def playerKeys (df : List Obs) (pid : String) : List (String × String × String × Int) :=
  (((multiSeasonData df).filter (fun o => o.player_id == pid)).map keyOf).dedup

/-- One player's group keys stably sorted by season ascending (the
restriction of `sort_values(['player_id', 'season'])` to one player). -/
def playerKeysSorted (df : List Obs) (pid : String) :
    List (String × String × String × Int) :=
  (playerKeys df pid).mergeSort (fun k k' => decide (k.2.2.2 ≤ k'.2.2.2))

/-- `fantasy_points_ppr` summed over one group of `multi_season_data`
(the `agg({'fantasy_points_ppr': 'sum'})` of `player_season_stats`). -/
def keyTotal (df : List Obs) (k : String × String × String × Int) : ℚ :=
  qsum (((multiSeasonData df).filter (fun o => keyOf o == k)).map
    (fun o => o.fantasy_points_ppr))

/-- One row of `valid_changes`: a player-season row of
`player_season_stats` whose `prev_season_points` (the `shift(1)` value) is
present, i.e. the `dropna(subset=['yoy_change'])` survivors. -/
structure YoyRow where
  player_id : String
  player_display_name : String
  position : String
  season : Int
  fantasy_points_ppr : ℚ
  prev_season_points : ℚ
deriving Repr, DecidableEq

/-- `yoy_change = fantasy_points_ppr - prev_season_points`. -/
def yoyChange (r : YoyRow) : ℚ := r.fantasy_points_ppr - r.prev_season_points

/-- `yoy_change_pct = (yoy_change / prev_season_points) * 100`, with float
division semantics (infinite, not missing, when the previous total is zero
and the change is not). -/
def yoyChangePct (r : YoyRow) : PVal :=
  (fdiv (yoyChange r) r.prev_season_points).mulPos 100

/-- The valid-change rows of one player: one row per consecutive pair of
its season-sorted group keys, carrying the current and previous totals. -/
def playerYoyRows (df : List Obs) (pid : String) : List YoyRow :=
  let l := playerKeysSorted df pid
  (l.zip l.tail).map (fun p =>
    ⟨p.2.1, p.2.2.1, p.2.2.2.1, p.2.2.2.2, keyTotal df p.2, keyTotal df p.1⟩)

/-- `valid_changes`: all players' valid year-over-year change rows. -/
def validChanges (df : List Obs) : List YoyRow :=
  (((multiSeasonData df).map (fun o => o.player_id)).dedup).flatMap (playerYoyRows df)

/-- The breakout filter of insights.py lines 128-131:
`(yoy_change > 50) & (yoy_change_pct > 25)`. -/
def isBreakout (r : YoyRow) : Bool :=
  decide (50 < yoyChange r) && (yoyChangePct r).gtQ 25

/-- The bust filter of insights.py lines 134-137:
`(yoy_change < -50) & (yoy_change_pct < -25)`. -/
def isBust (r : YoyRow) : Bool :=
  decide (yoyChange r < -50) && (yoyChangePct r).ltQ (-25)

/-- `valid_changes[valid_changes['position'] == position]`. -/
def posChanges (df : List Obs) (pos : String) : List YoyRow :=
  (validChanges df).filter (fun r => r.position == pos)

/-- pandas `nlargest(n, col)`: drop rows whose key is `NaN`, stably sort
the rest descending by the key, keep the first `n`. -/
def nlargestBy {α : Type} (n : ℕ) (key : α → PVal) (l : List α) : List α :=
  ((l.filter (fun a => !(key a).isNan)).mergeSort
    (fun a b => pvalGeB (key a) (key b))).take n

/-- pandas `nsmallest(n, col)`: drop rows whose key is `NaN`, stably sort
the rest ascending by the key, keep the first `n`. -/
def nsmallestBy {α : Type} (n : ℕ) (key : α → PVal) (l : List α) : List α :=
  ((l.filter (fun a => !(key a).isNan)).mergeSort
    (fun a b => pvalGeB (key b) (key a))).take n

/-- `breakouts` for one position: the qualifying rows, top 10 by
`yoy_change_pct` (insights.py line 131). -/
def breakouts (df : List Obs) (pos : String) : List YoyRow :=
  nlargestBy 10 yoyChangePct ((posChanges df pos).filter isBreakout)

/-- `busts` for one position: the qualifying rows, bottom 10 by
`yoy_change_pct` (insights.py line 137). -/
def busts (df : List Obs) (pos : String) : List YoyRow :=
  nsmallestBy 10 yoyChangePct ((posChanges df pos).filter isBust)

/-- `breakout_rate = len(breakouts) / len(pos_data) * 100 if len(pos_data) > 0
else 0` (insights.py line 148). -/
def breakoutRate (df : List Obs) (pos : String) : ℚ :=
  if 0 < (posChanges df pos).length then
    ((breakouts df pos).length : ℚ) / ((posChanges df pos).length : ℚ) * 100
  else 0

/-- `bust_rate = len(busts) / len(pos_data) * 100 if len(pos_data) > 0 else 0`
(insights.py line 149). -/
def bustRate (df : List Obs) (pos : String) : ℚ :=
  if 0 < (posChanges df pos).length then
    ((busts df pos).length : ℚ) / ((posChanges df pos).length : ℚ) * 100
  else 0

/-! ## Value Ranker (`calculate_positional_value_insights`,
insights.py lines 154-198) -/

/-- The distinct group keys of `season_totals`
(`groupby(['player_id', 'player_display_name', 'position', 'season'])`
over the full table). -/
def seasonTotalKeys (df : List Obs) : List (String × String × String × Int) :=
  (df.map keyOf).dedup

/-- The summed `fantasy_points_ppr` of one `season_totals` group, over the
full table. -/
def seasonKeyTotal (df : List Obs) (k : String × String × String × Int) : ℚ :=
  qsum ((df.filter (fun o => keyOf o == k)).map (fun o => o.fantasy_points_ppr))

/-- The per-player season totals of one season and position
(`season_data[season_data['position'] == position]`), as a list of values. -/
def posSeasonTotals (df : List Obs) (season : Int) (pos : String) : List ℚ :=
  (((seasonTotalKeys df).filter
      (fun k => k.2.2.1 == pos && k.2.2.2 == season)).map (seasonKeyTotal df))

/-- `sort_values('fantasy_points_ppr', ascending=False)` on the totals. -/
def sortTotalsDesc (l : List ℚ) : List ℚ :=
  l.mergeSort (fun a b => decide (b ≤ a))

/-- `replacement_ranks = {'QB': 12, 'RB': 24, 'WR': 24, 'TE': 12}` with
`.get(position, 12)` (insights.py lines 174-175). -/
def replacementRank (pos : String) : ℕ :=
  if pos == "QB" then 12
  else if pos == "RB" then 24
  else if pos == "WR" then 24
  else if pos == "TE" then 12
  else 12

/-- `replacement_value` (insights.py lines 177-180): the total at index
`replacement_rank - 1` of the descending sort when at least
`replacement_rank` players exist, otherwise the last (lowest) total; the
surrounding `if not pos_data.empty` guard makes it `none` on an empty
position, where the source computes nothing. -/
def replacementValue (df : List Obs) (season : Int) (pos : String) : Option ℚ :=
  let sorted := sortTotalsDesc (posSeasonTotals df season pos)
  if sorted.isEmpty then none
  else if replacementRank pos ≤ sorted.length then sorted[replacementRank pos - 1]?
  else sorted.getLast?

/-! ## Error isolation (`display_insights_summary`, insights.py lines 282-295)

`display_insights_summary` calls the three insight functions in sequence
with no `try`/`except`.  A pandas DataFrame access to an absent column
raises a `KeyError` naming the column; this is modelled by a `Frame`
carrying the set of present column names next to the rows, each insight
function first demanding its columns (in the order the source first reads
them) in the `Except` monad, and the summary sequencing the three calls so
that an error propagates exactly as an uncaught Python exception does. -/

/-- A DataFrame: its column index plus its rows.  Field values of absent
columns are never read, because every computation below first checks its
required columns. -/
structure Frame where
  cols : List String
  rows : List Obs
deriving Repr, DecidableEq

/-- Demand the given columns of a frame, failing with the first absent
column's name (the `KeyError`). -/
def checkCols (need : List String) (f : Frame) : Except String Unit :=
  match need.find? (fun c => !f.cols.contains c) with
  | some c => .error c
  | none => .ok ()

/-- The columns `calculate_rookie_insights` reads, in first-read order. -/
def rookieCols : List String :=
  ["player_id", "season", "position", "fantasy_points_ppr", "player_display_name", "week"]

/-- The columns `calculate_consistency_insights` reads, in first-read order. -/
def consistencyCols : List String :=
  ["position", "player_display_name", "fantasy_points_ppr"]

/-- The columns `calculate_breakout_insights` reads, in first-read order. -/
def breakoutCols : List String :=
  ["player_id", "season", "player_display_name", "position", "fantasy_points_ppr"]

/-- `calculate_rookie_insights` as invoked on a frame: check columns, then
compute (per position, the gap percentage stands in for the insight
record). -/
def calcRookieInsights (f : Frame) : Except String (List (String × Option ℚ)) := do
  let _ ← checkCols rookieCols f
  pure (["QB", "RB", "WR", "TE"].map (fun pos => (pos, gapPercentage f.rows pos)))

/-- `calculate_consistency_insights` as invoked on a frame. -/
def calcConsistencyInsights (f : Frame) :
    Except String (List (String × List ConsRow)) := do
  let _ ← checkCols consistencyCols f
  pure (["QB", "RB", "WR", "TE"].map (fun pos => (pos, playerConsistency f.rows pos)))

/-- `calculate_breakout_insights` as invoked on a frame (per position, the
breakout and bust rates stand in for the insight record). -/
def calcBreakoutInsights (f : Frame) : Except String (List (String × ℚ × ℚ)) := do
  let _ ← checkCols breakoutCols f
  pure (["QB", "RB", "WR", "TE"].map (fun pos => (pos, breakoutRate f.rows pos, bustRate f.rows pos)))

/-- The computation prefix of `display_insights_summary` (insights.py lines
288-290): the three insight functions called in sequence with no exception
handling, so the first failure aborts the remainder. -/
def displayInsightsSummary (f : Frame) :
    Except String ((List (String × Option ℚ)) × (List (String × List ConsRow)) ×
      (List (String × ℚ × ℚ))) := do
  let r ← calcRookieInsights f
  let c ← calcConsistencyInsights f
  let b ← calcBreakoutInsights f
  pure (r, c, b)

/-! ## Auxiliary notions used by the theorems -/

/-- Well-formedness of the observation table: a `player_id` always carries
one display name and one position.  The groupby keys of
`player_season_stats` include the display name and position next to the
id, so two rows of one player with diverging name or position would split
into separate groups; real rosters satisfy this consistency. -/
def PidConsistent (df : List Obs) : Prop :=
  ∀ o ∈ df, ∀ o' ∈ df, o.player_id = o'.player_id →
    o.player_display_name = o'.player_display_name ∧ o.position = o'.position

/-- A player's distinct seasons sorted ascending (the player's ordered
per-season data). -/
def sortedSeasonsOf (df : List Obs) (pid : String) : List Int :=
  ((playerSeasons df pid).dedup).mergeSort (fun a b => decide (a ≤ b))

/-- The summed fantasy points of one player in one season, over the full
table. -/
def seasonTotalQ (df : List Obs) (pid : String) (s : Int) : ℚ :=
  qsum ((df.filter (fun o => o.player_id == pid && o.season == s)).map
    (fun o => o.fantasy_points_ppr))

/-! ## Helper lemmas -/

theorem intListMinSome {l : List Int} {m : Int} (h : l.min? = some m) :
    m ∈ l ∧ ∀ b ∈ l, m ≤ b := by
  haveI : Std.Antisymm (fun (x1 x2 : Int) => x1 ≤ x2) :=
    ⟨fun h h' => le_antisymm h h'⟩
  rw [List.min?_eq_some_iff] at h
  · exact h
  · exact fun a => le_refl a
  · exact fun a b => min_choice a b
  · exact fun a b c => le_min_iff

theorem mem_playerSeasons {df : List Obs} {o : Obs} (ho : o ∈ df) {pid : String}
    (hpid : o.player_id = pid) : o.season ∈ playerSeasons df pid := by
  exact List.mem_map.mpr ⟨o, List.mem_filter.mpr ⟨ho, by simp [hpid]⟩, rfl⟩

theorem of_mem_playerSeasons {df : List Obs} {pid : String} {x : Int}
    (hx : x ∈ playerSeasons df pid) :
    ∃ o ∈ df, o.player_id = pid ∧ o.season = x := by
  rcases List.mem_map.mp hx with ⟨o, hof, hseason⟩
  rcases List.mem_filter.mp hof with ⟨hodf, hopid⟩
  exact ⟨o, hodf, by simpa using hopid, hseason⟩

theorem rookieSeason_isSome {df : List Obs} {o : Obs} (ho : o ∈ df) :
    ∃ m, rookieSeason df o.player_id = some m := by
  cases h : (playerSeasons df o.player_id).min? with
  | none =>
      rw [List.min?_eq_none_iff] at h
      have := mem_playerSeasons ho rfl
      rw [h] at this
      cases this
  | some m => exact ⟨m, h⟩

theorem isRookie_iff_eq_min (df : List Obs) (o : Obs) {m : Int}
    (hm : rookieSeason df o.player_id = some m) :
    isRookie df o = true ↔ o.season = m := by
  unfold isRookie
  rw [hm]
  simp only [beq_iff_eq, Option.some.injEq]
  exact eq_comm

/-! ## Claim theorems -/

/-- C1: for every observation `o` of the working table, `o` is marked
rookie iff its season equals the minimum season over all of that player's
rows (equivalently, iff its season is ≤ every season of that player);
consequently a player whose rows all share one season has every observation
marked rookie, any two marked observations of the same player share the
same season (exactly one season is marked), and some observation of the
player is always marked. -/
theorem rookie_classifier_correct (df : List Obs) (o : Obs) (ho : o ∈ df) :
    (isRookie df o = true ↔ ∀ o' ∈ df, o'.player_id = o.player_id → o.season ≤ o'.season) ∧
    ((∀ o' ∈ df, o'.player_id = o.player_id → o'.season = o.season) → isRookie df o = true) ∧
    (∀ o' ∈ df, o'.player_id = o.player_id → isRookie df o = true → isRookie df o' = true →
      o'.season = o.season) ∧
    (∃ o' ∈ df, o'.player_id = o.player_id ∧ isRookie df o' = true) := by
  rcases rookieSeason_isSome ho with ⟨m, hm⟩
  rcases intListMinSome hm with ⟨hmem, hle⟩
  have hiff := isRookie_iff_eq_min df o hm
  have hmain : isRookie df o = true ↔
      ∀ o' ∈ df, o'.player_id = o.player_id → o.season ≤ o'.season := by
    rw [hiff]
    constructor
    · intro hEq o' ho' hpid
      rw [hEq]
      exact hle _ (mem_playerSeasons ho' hpid)
    · intro hall
      have h1 : o.season ≤ m := by
        rcases of_mem_playerSeasons hmem with ⟨o'', ho''df, ho''pid, ho''s⟩
        rw [← ho''s]
        exact hall o'' ho''df ho''pid
      have h2 : m ≤ o.season := hle _ (mem_playerSeasons ho rfl)
      exact le_antisymm h1 h2
  refine ⟨hmain, ?_, ?_, ?_⟩
  · intro hone
    exact hmain.mpr (fun o' ho' hpid => le_of_eq (hone o' ho' hpid).symm)
  · intro o' ho' hpid hro hro'
    have hm' : rookieSeason df o'.player_id = some m := by rw [hpid]; exact hm
    have := (isRookie_iff_eq_min df o' hm').mp hro'
    rw [this, hiff.mp hro]
  · rcases of_mem_playerSeasons hmem with ⟨o'', ho''df, ho''pid, ho''s⟩
    refine ⟨o'', ho''df, ho''pid, ?_⟩
    have hm'' : rookieSeason df o''.player_id = some m := by rw [ho''pid]; exact hm
    exact (isRookie_iff_eq_min df o'' hm'').mpr ho''s

/-- Witness for C1 at a concrete two-season player: the 2020 row is marked
rookie and the classifier facts hold for it. -/
theorem rookie_classifier_correct_witness :
    (⟨"p1", "A", "QB", 2020, 1, 10⟩ : Obs) ∈
        ([⟨"p1", "A", "QB", 2020, 1, 10⟩, ⟨"p1", "A", "QB", 2021, 1, 5⟩] : List Obs) ∧
      (isRookie [⟨"p1", "A", "QB", 2020, 1, 10⟩, ⟨"p1", "A", "QB", 2021, 1, 5⟩]
          ⟨"p1", "A", "QB", 2020, 1, 10⟩ = true ↔
        ∀ o' ∈ ([⟨"p1", "A", "QB", 2020, 1, 10⟩, ⟨"p1", "A", "QB", 2021, 1, 5⟩] : List Obs),
          o'.player_id = "p1" → (2020 : Int) ≤ o'.season) := by
  constructor
  · exact List.mem_cons_self _ _
  · exact (rookie_classifier_correct _ _ (List.mem_cons_self _ _)).1

/-- C2: for every player passing the scorer's filter (`seasons_played >= 2`),
the consistency score equals the mean divided by the standard deviation
plus one, and the composite draft score equals 0.7 times the mean plus 0.3
times the consistency score; in particular mean 20 and standard deviation 4
give consistency score 4 and composite score 15.2 = 76/5. -/
theorem recommendation_scorer_formula (ms : List MetricsIn) (r : ScoredRow)
    (hr : r ∈ scoreExperienced ms) :
    r.consistency_score = r.avg_ppg / (r.std_ppg + 1) ∧
    r.draft_score = r.avg_ppg * (7 / 10) + r.consistency_score * (3 / 10) ∧
    (r.avg_ppg = 20 ∧ r.std_ppg = 4 → r.consistency_score = 4 ∧ r.draft_score = 76 / 5) := by
  rcases List.mem_map.mp hr with ⟨m, _, hmk⟩
  subst hmk
  refine ⟨rfl, rfl, ?_⟩
  rintro ⟨h20, h4⟩
  simp only at h20 h4
  rw [h20, h4]
  norm_num

/-- Witness for C2: a single qualifying player with mean 20 and standard
deviation 4 is scored with consistency score 4 and draft score 76/5. -/
theorem recommendation_scorer_formula_witness :
    (⟨"A", 20, 4, 4, 76 / 5⟩ : ScoredRow) ∈
        scoreExperienced [(⟨"A", 20, 4, 2⟩ : MetricsIn)] ∧
      (4 : ℚ) = 20 / (4 + 1) ∧ (76 / 5 : ℚ) = 20 * (7 / 10) + 4 * (3 / 10) := by
  have hmem : (⟨"A", 20, 4, 4, 76 / 5⟩ : ScoredRow) ∈
      scoreExperienced [(⟨"A", 20, 4, 2⟩ : MetricsIn)] := by
    unfold scoreExperienced
    simp only [List.filter, List.map]
    norm_num [List.mem_singleton]
  have h := recommendation_scorer_formula [(⟨"A", 20, 4, 2⟩ : MetricsIn)]
    ⟨"A", 20, 4, 4, 76 / 5⟩ hmem
  rcases h.2.2 ⟨rfl, rfl⟩ with ⟨h1, h2⟩
  exact ⟨hmem, by norm_num, by norm_num⟩

/-- C8: an aggregate row of `player_consistency` whose group has exactly one
observation reports a missing (sample, n-1 denominator) standard deviation:
its variance cell is `none`, in particular never `some 0`, and the
aggregation is a total function (no error). -/
theorem aggregator_sd_singleton (df : List Obs) (pos : String) (row : ConsRow)
    (hrow : row ∈ playerConsistency df pos) (h1 : row.games = 1) :
    row.var_points = none ∧ row.var_points ≠ some 0 := by
  rcases List.mem_map.mp hrow with ⟨nm, _, hmk⟩
  subst hmk
  simp only at h1 ⊢
  have : (sampleVar ((nameRows (posRows df pos) nm).map (fun o => o.fantasy_points_ppr))) = none := by
    unfold sampleVar
    rw [if_pos (by rw [List.length_map] at h1 ⊢; omega)]
  refine ⟨?_, ?_⟩
  · exact this
  · rw [this]; exact fun h => Option.noConfusion h

/-- Witness for C8 at a concrete one-game player: the aggregate row exists,
its group has one game, and its standard deviation cell is missing. -/
theorem aggregator_sd_singleton_witness :
    (⟨"A", some 10, none, 1, some 10, some 10⟩ : ConsRow) ∈
        playerConsistency [(⟨"p1", "A", "QB", 2020, 1, 10⟩ : Obs)] "QB" ∧
      (⟨"A", some 10, none, 1, some 10, some 10⟩ : ConsRow).var_points = none := by
  have hmem : (⟨"A", some 10, none, 1, some 10, some 10⟩ : ConsRow) ∈
      playerConsistency [(⟨"p1", "A", "QB", 2020, 1, 10⟩ : Obs)] "QB" := by
    simp [playerConsistency, displayNames, posRows, nameRows, listMean, sampleVar,
      qsum, List.dedup, List.pwFilter]
  exact ⟨hmem, (aggregator_sd_singleton _ _ _ hmem rfl).1⟩

theorem replacementRank_pos (pos : String) : 1 ≤ replacementRank pos := by
  unfold replacementRank
  split_ifs <;> norm_num

theorem sortTotalsDesc_perm (l : List ℚ) : (sortTotalsDesc l).Perm l :=
  List.mergeSort_perm l _

theorem sortTotalsDesc_sorted (l : List ℚ) :
    (sortTotalsDesc l).Pairwise (fun a b => b ≤ a) := by
  have h := @List.sorted_mergeSort ℚ
    (fun (a b : ℚ) => decide (b ≤ a))
    (fun a b c hab hbc => by
      simp only [decide_eq_true_eq] at hab hbc ⊢
      exact le_trans hbc hab)
    (fun a b => by
      simp only [Bool.or_eq_true, decide_eq_true_eq]
      exact le_total b a)
    l
  exact h.imp (fun hab => by simpa using hab)

/-- C3: for every season and position with at least one player, the
replacement baseline is a present (non-missing) value; the list it indexes
into is the descending sort of the per-player totals (a permutation of the
totals, pairwise descending); when at least `replacementRank pos` players
exist the baseline is the total at that fixed rank (12 for QB and TE, 24
for RB and WR), and with fewer players it is the last (lowest) sorted
total — never a missing value and never an out-of-bounds failure. -/
theorem value_ranker_correct (df : List Obs) (season : Int) (pos : String)
    (h : posSeasonTotals df season pos ≠ []) :
    (replacementRank "QB" = 12 ∧ replacementRank "TE" = 12 ∧
      replacementRank "RB" = 24 ∧ replacementRank "WR" = 24) ∧
    (sortTotalsDesc (posSeasonTotals df season pos)).Perm (posSeasonTotals df season pos) ∧
    (sortTotalsDesc (posSeasonTotals df season pos)).Pairwise (fun a b => b ≤ a) ∧
    ∃ v, replacementValue df season pos = some v ∧
      (replacementRank pos ≤ (posSeasonTotals df season pos).length →
        (sortTotalsDesc (posSeasonTotals df season pos))[replacementRank pos - 1]? = some v) ∧
      ((posSeasonTotals df season pos).length < replacementRank pos →
        (sortTotalsDesc (posSeasonTotals df season pos)).getLast? = some v) := by
  refine ⟨⟨rfl, rfl, rfl, rfl⟩, sortTotalsDesc_perm _, sortTotalsDesc_sorted _, ?_⟩
  set l := posSeasonTotals df season pos with hl
  have hlen : (sortTotalsDesc l).length = l.length := List.length_mergeSort l
  have hne : ¬ (sortTotalsDesc l).isEmpty := by
    rw [List.isEmpty_iff_length_eq_zero, hlen]
    intro h0
    exact h (List.length_eq_zero.mp h0)
  unfold replacementValue
  rw [← hl, if_neg hne]
  by_cases hrank : replacementRank pos ≤ (sortTotalsDesc l).length
  · rw [if_pos hrank]
    have hlt : replacementRank pos - 1 < (sortTotalsDesc l).length := by
      have := replacementRank_pos pos
      omega
    refine ⟨(sortTotalsDesc l)[replacementRank pos - 1], ?_, ?_, ?_⟩
    · exact List.getElem?_eq_getElem hlt
    · intro _
      exact List.getElem?_eq_getElem hlt
    · intro hcon
      rw [hlen] at hrank
      omega
  · rw [if_neg hrank]
    have hne' : sortTotalsDesc l ≠ [] := by
      intro h0
      rw [h0] at hne
      exact hne rfl
    rcases Option.isSome_iff_exists.mp (List.getLast?_isSome.mpr hne') with ⟨v, hv⟩
    refine ⟨v, hv, ?_, fun _ => hv⟩
    intro hcon
    rw [hlen] at hrank
    omega

/-- Witness for C3 at a concrete short RB list (two players, threshold 24):
the totals list is nonempty and the baseline is a present value. -/
theorem value_ranker_correct_witness :
    posSeasonTotals
        [(⟨"p1", "A", "RB", 2023, 1, 100⟩ : Obs), (⟨"p2", "B", "RB", 2023, 1, 50⟩ : Obs)]
        2023 "RB" ≠ [] ∧
      ∃ v, replacementValue
          [(⟨"p1", "A", "RB", 2023, 1, 100⟩ : Obs), (⟨"p2", "B", "RB", 2023, 1, 50⟩ : Obs)]
          2023 "RB" = some v := by
  have hne : posSeasonTotals
      [(⟨"p1", "A", "RB", 2023, 1, 100⟩ : Obs), (⟨"p2", "B", "RB", 2023, 1, 50⟩ : Obs)]
      2023 "RB" ≠ [] := by
    simp [posSeasonTotals, seasonTotalKeys, seasonKeyTotal, keyOf, qsum, List.dedup,
      List.pwFilter]
  rcases (value_ranker_correct
      [(⟨"p1", "A", "RB", 2023, 1, 100⟩ : Obs), (⟨"p2", "B", "RB", 2023, 1, 50⟩ : Obs)]
      2023 "RB" hne).2.2.2 with ⟨v, hv, _, _⟩
  exact ⟨hne, v, hv⟩

theorem pairwise_zip_tail {α : Type} {R : α → α → Prop} :
    ∀ {l : List α}, l.Pairwise R → ∀ p ∈ l.zip l.tail, R p.1 p.2 := by
  intro l
  induction l with
  | nil => intro _ p hp; cases hp
  | cons a t ih =>
      intro hpw p hp
      cases t with
      | nil => cases hp
      | cons b t' =>
          rcases List.pairwise_cons.mp hpw with ⟨hab, htail⟩
          simp only [List.tail_cons, List.zip_cons_cons, List.mem_cons] at hp
          rcases hp with hp | hp
          · rw [hp]
            exact hab b (List.mem_cons_self _ _)
          · exact ih htail p (by simpa using hp)

theorem dedup_map_inj {α β : Type} [DecidableEq α] [DecidableEq β] {f : α → β}
    (hf : Function.Injective f) (l : List α) : (l.map f).dedup = l.dedup.map f := by
  induction l with
  | nil => rfl
  | cons a t ih =>
      by_cases h : a ∈ t
      · rw [List.map_cons, List.dedup_cons_of_mem ((List.mem_map_of_injective hf).mpr h),
          List.dedup_cons_of_mem h, ih]
      · rw [List.map_cons, List.dedup_cons_of_not_mem, List.dedup_cons_of_not_mem h,
          List.map_cons, ih]
        exact fun hmem => h ((List.mem_map_of_injective hf).mp hmem)

theorem playerKeysSorted_perm (df : List Obs) (pid : String) :
    (playerKeysSorted df pid).Perm (playerKeys df pid) :=
  List.mergeSort_perm _ _

theorem playerKeysSorted_pairwise (df : List Obs) (pid : String) :
    (playerKeysSorted df pid).Pairwise
      (fun k k' : String × String × String × Int => k.2.2.2 ≤ k'.2.2.2) := by
  have h := @List.sorted_mergeSort (String × String × String × Int)
    (fun k k' : String × String × String × Int => decide (k.2.2.2 ≤ k'.2.2.2))
    (fun a b c hab hbc => by
      simp only [decide_eq_true_eq] at hab hbc ⊢
      exact le_trans hab hbc)
    (fun a b => by
      simp only [Bool.or_eq_true, decide_eq_true_eq]
      exact le_total a.2.2.2 b.2.2.2)
    (playerKeys df pid)
  exact h.imp (fun hab => by simpa using hab)

theorem playerKeysSorted_nodup (df : List Obs) (pid : String) :
    (playerKeysSorted df pid).Nodup :=
  ((playerKeysSorted_perm df pid).symm.nodup (List.nodup_dedup _))

theorem mem_playerKeys {df : List Obs} {pid : String} {k : String × String × String × Int} :
    k ∈ playerKeys df pid ↔ ∃ o ∈ multiSeasonData df, o.player_id = pid ∧ keyOf o = k := by
  unfold playerKeys
  rw [List.mem_dedup, List.mem_map]
  constructor
  · rintro ⟨o, hof, hk⟩
    rcases List.mem_filter.mp hof with ⟨homs, hopid⟩
    exact ⟨o, homs, by simpa using hopid, hk⟩
  · rintro ⟨o, homs, hopid, hk⟩
    exact ⟨o, List.mem_filter.mpr ⟨homs, by simpa using hopid⟩, hk⟩

theorem playerKeys_fst {df : List Obs} {pid : String} {k : String × String × String × Int}
    (hk : k ∈ playerKeys df pid) : k.1 = pid := by
  rcases mem_playerKeys.mp hk with ⟨o, _, hopid, hko⟩
  rw [← hko]
  exact hopid

theorem multiSeasonData_subset (df : List Obs) : multiSeasonData df ⊆ df :=
  fun _ ha => List.mem_of_mem_filter ha

theorem seasonCount_congr {df : List Obs} {o : Obs} {pid : String}
    (h : o.player_id = pid) : seasonCount df o.player_id = seasonCount df pid := by
  rw [h]

theorem validChanges_mem_elim {df : List Obs} {r : YoyRow} (hr : r ∈ validChanges df) :
    ∃ pid, ∃ p ∈ (playerKeysSorted df pid).zip (playerKeysSorted df pid).tail,
      r = ⟨p.2.1, p.2.2.1, p.2.2.2.1, p.2.2.2.2, keyTotal df p.2, keyTotal df p.1⟩ := by
  rcases List.mem_flatMap.mp hr with ⟨pid, _, hrp⟩
  unfold playerYoyRows at hrp
  rcases List.mem_map.mp hrp with ⟨p, hpzip, hmk⟩
  exact ⟨pid, p, hpzip, hmk.symm⟩

theorem zip_tail_mem_both {α : Type} {l : List α} {p : α × α} (hp : p ∈ l.zip l.tail) :
    p.1 ∈ l ∧ p.2 ∈ l := by
  obtain ⟨a, b⟩ := p
  rcases List.of_mem_zip hp with ⟨h1, h2⟩
  exact ⟨h1, List.mem_of_mem_tail h2⟩

theorem validChanges_has_prior (df : List Obs) (hcons : PidConsistent df)
    (r : YoyRow) (hr : r ∈ validChanges df) :
    ∃ o ∈ df, o.player_id = r.player_id ∧ o.season < r.season := by
  rcases validChanges_mem_elim hr with ⟨pid, p, hpzip, hmk⟩
  rcases zip_tail_mem_both hpzip with ⟨h1s, h2s⟩
  have h1k : p.1 ∈ playerKeys df pid := (playerKeysSorted_perm df pid).mem_iff.mp h1s
  have h2k : p.2 ∈ playerKeys df pid := (playerKeysSorted_perm df pid).mem_iff.mp h2s
  rcases mem_playerKeys.mp h1k with ⟨o1, ho1ms, ho1pid, ho1k⟩
  rcases mem_playerKeys.mp h2k with ⟨o2, ho2ms, ho2pid, ho2k⟩
  have ho1df : o1 ∈ df := multiSeasonData_subset df ho1ms
  have ho2df : o2 ∈ df := multiSeasonData_subset df ho2ms
  have hle : p.1.2.2.2 ≤ p.2.2.2.2 :=
    pairwise_zip_tail (playerKeysSorted_pairwise df pid) p hpzip
  have hne : p.1 ≠ p.2 :=
    pairwise_zip_tail (playerKeysSorted_nodup df pid) p hpzip
  have heqnp := hcons o1 ho1df o2 ho2df (ho1pid.trans ho2pid.symm)
  have hlt : p.1.2.2.2 < p.2.2.2.2 := by
    rcases lt_or_eq_of_le hle with h | h
    · exact h
    · exfalso
      apply hne
      rw [← ho1k, ← ho2k] at h ⊢
      unfold keyOf at h ⊢
      simp only [Prod.mk.injEq]
      exact ⟨ho1pid.trans ho2pid.symm, heqnp.1, heqnp.2, h⟩
  refine ⟨o1, ho1df, ?_, ?_⟩
  · rw [hmk]
    simp only
    rw [ho1pid, ← ho2pid, ← ho2k]
    rfl
  · rw [hmk]
    simp only
    rw [← ho1k] at hlt
    exact hlt

theorem msd_filter_pid (df : List Obs) (pid : String) (hmulti : 2 ≤ seasonCount df pid) :
    (multiSeasonData df).filter (fun o => o.player_id == pid) =
      df.filter (fun o => o.player_id == pid) := by
  unfold multiSeasonData
  rw [List.filter_filter]
  apply List.filter_congr
  intro o _
  by_cases h : o.player_id = pid
  · simp [h, hmulti]
  · simp [h]

theorem playerKeys_eq_map_embed (df : List Obs) (hcons : PidConsistent df)
    {pid : String} (o0 : Obs) (ho0 : o0 ∈ df) (hpid0 : o0.player_id = pid)
    (hmulti : 2 ≤ seasonCount df pid) :
    playerKeys df pid = (playerSeasons df pid).dedup.map
      (fun s => (pid, o0.player_display_name, o0.position, s)) := by
  unfold playerKeys
  rw [msd_filter_pid df pid hmulti]
  have hmap : (df.filter (fun o => o.player_id == pid)).map keyOf =
      ((df.filter (fun o => o.player_id == pid)).map (fun o => o.season)).map
        (fun s => (pid, o0.player_display_name, o0.position, s)) := by
    rw [List.map_map]
    apply List.map_congr_left
    intro o ho
    rcases List.mem_filter.mp ho with ⟨hodf, hopid⟩
    have hopid' : o.player_id = pid := by simpa using hopid
    have h := hcons o hodf o0 ho0 (hopid'.trans hpid0.symm)
    simp [keyOf, Function.comp, hopid', h.1, h.2]
  rw [hmap, dedup_map_inj]
  · rfl
  · intro a b hab
    simpa using hab

theorem playerKeysSorted_eq_map_embed (df : List Obs) (hcons : PidConsistent df)
    {pid : String} (o0 : Obs) (ho0 : o0 ∈ df) (hpid0 : o0.player_id = pid)
    (hmulti : 2 ≤ seasonCount df pid) :
    playerKeysSorted df pid = (sortedSeasonsOf df pid).map
      (fun s => (pid, o0.player_display_name, o0.position, s)) := by
  haveI : IsAntisymm (String × String × String × Int)
      (fun k k' => k.2.2.2 < k'.2.2.2) :=
    ⟨fun a b hab hba => absurd hba (lt_asymm hab)⟩
  have hperm : (playerKeysSorted df pid).Perm
      ((sortedSeasonsOf df pid).map
        (fun s => (pid, o0.player_display_name, o0.position, s))) := by
    refine (playerKeysSorted_perm df pid).trans ?_
    rw [playerKeys_eq_map_embed df hcons o0 ho0 hpid0 hmulti]
    exact ((List.mergeSort_perm (playerSeasons df pid).dedup _).symm.map _)
  have hsortA : (playerKeysSorted df pid).Pairwise
      (fun k k' : String × String × String × Int => k.2.2.2 < k'.2.2.2) := by
    have hand := (playerKeysSorted_pairwise df pid).and (playerKeysSorted_nodup df pid)
    refine hand.imp_of_mem ?_
    intro a b ha hb hab
    have haemb := hperm.mem_iff.mp ha
    have hbemb := hperm.mem_iff.mp hb
    rcases List.mem_map.mp haemb with ⟨sa, _, hsa⟩
    rcases List.mem_map.mp hbemb with ⟨sb, _, hsb⟩
    rcases lt_or_eq_of_le hab.1 with h | h
    · exact h
    · exfalso
      apply hab.2
      rw [← hsa, ← hsb]
      rw [← hsa, ← hsb] at h
      simp only at h
      rw [h]
  have hsortB : ((sortedSeasonsOf df pid).map
      (fun s => (pid, o0.player_display_name, o0.position, s))).Pairwise
        (fun k k' : String × String × String × Int => k.2.2.2 < k'.2.2.2) := by
    have hs : (sortedSeasonsOf df pid).Pairwise (fun a b : Int => a ≤ b) := by
      have h := @List.sorted_mergeSort Int
        (fun a b : Int => decide (a ≤ b))
        (fun a b c hab hbc => by
          simp only [decide_eq_true_eq] at hab hbc ⊢
          exact le_trans hab hbc)
        (fun a b => by
          simp only [Bool.or_eq_true, decide_eq_true_eq]
          exact le_total a b)
        (playerSeasons df pid).dedup
      exact h.imp (fun hab => by simpa using hab)
    have hnd : (sortedSeasonsOf df pid).Nodup :=
      (List.mergeSort_perm (playerSeasons df pid).dedup _).symm.nodup (List.nodup_dedup _)
    have hlt : (sortedSeasonsOf df pid).Pairwise (fun a b : Int => a < b) :=
      (hs.and hnd).imp (fun hab => lt_of_le_of_ne hab.1 hab.2)
    exact hlt.map _ (fun a b hab => hab)
  exact List.eq_of_perm_of_sorted hperm hsortA hsortB

theorem keyTotal_embed (df : List Obs) (hcons : PidConsistent df)
    {pid : String} (o0 : Obs) (ho0 : o0 ∈ df) (hpid0 : o0.player_id = pid)
    (hmulti : 2 ≤ seasonCount df pid) (s : Int) :
    keyTotal df (pid, o0.player_display_name, o0.position, s) = seasonTotalQ df pid s := by
  unfold keyTotal seasonTotalQ multiSeasonData
  rw [List.filter_filter]
  congr 1
  congr 1
  apply List.filter_congr
  intro o ho
  by_cases hpid : o.player_id = pid
  · have h := hcons o ho o0 ho0 (hpid.trans hpid0.symm)
    have hm : 2 ≤ seasonCount df o.player_id := by rw [hpid]; exact hmulti
    rw [Bool.eq_iff_iff]
    simp [keyOf, Prod.ext_iff, hpid, h.1, h.2, hm, hmulti]
  · rw [Bool.eq_iff_iff]
    simp [keyOf, Prod.ext_iff, hpid]

theorem validChanges_complete (df : List Obs) (hcons : PidConsistent df)
    (pid : String) (i : ℕ) (s' s : Int)
    (h1 : (sortedSeasonsOf df pid)[i]? = some s')
    (h2 : (sortedSeasonsOf df pid)[i + 1]? = some s) :
    ∃ r ∈ validChanges df, r.player_id = pid ∧ r.season = s ∧
      r.prev_season_points = seasonTotalQ df pid s' ∧
      r.fantasy_points_ppr = seasonTotalQ df pid s := by
  have hlen : (sortedSeasonsOf df pid).length = seasonCount df pid := by
    unfold sortedSeasonsOf seasonCount
    exact List.length_mergeSort _
  have hmulti : 2 ≤ seasonCount df pid := by
    rcases List.getElem?_eq_some_iff.mp h2 with ⟨hlt, _⟩
    rw [hlen] at hlt
    omega
  have hs'mem : s' ∈ playerSeasons df pid := by
    have := List.getElem?_mem h1
    unfold sortedSeasonsOf at this
    have := (List.mergeSort_perm (playerSeasons df pid).dedup _).mem_iff.mp this
    exact List.mem_dedup.mp this
  rcases of_mem_playerSeasons hs'mem with ⟨o0, ho0, hpid0, _⟩
  have hkeys := playerKeysSorted_eq_map_embed df hcons o0 ho0 hpid0 hmulti
  have hz : ((sortedSeasonsOf df pid).zip (sortedSeasonsOf df pid).tail)[i]? =
      some (s', s) := by
    rw [List.getElem?_zip_eq_some]
    exact ⟨h1, by rw [List.getElem?_tail]; exact h2⟩
  have hzm : ((s', s) : Int × Int) ∈
      (sortedSeasonsOf df pid).zip (sortedSeasonsOf df pid).tail :=
    List.getElem?_mem hz
  have hpairmem :
      ((pid, o0.player_display_name, o0.position, s'),
        (pid, o0.player_display_name, o0.position, s)) ∈
        (playerKeysSorted df pid).zip (playerKeysSorted df pid).tail := by
    rw [hkeys, ← List.map_tail, List.zip_map]
    exact List.mem_map.mpr ⟨(s', s), hzm, rfl⟩
  have hrmem : (⟨pid, o0.player_display_name, o0.position, s,
      keyTotal df (pid, o0.player_display_name, o0.position, s),
      keyTotal df (pid, o0.player_display_name, o0.position, s')⟩ : YoyRow) ∈
      playerYoyRows df pid := by
    unfold playerYoyRows
    exact List.mem_map.mpr ⟨_, hpairmem, rfl⟩
  have ho0msd : o0 ∈ multiSeasonData df := by
    unfold multiSeasonData
    refine List.mem_filter.mpr ⟨ho0, ?_⟩
    simp only [decide_eq_true_eq]
    rw [hpid0]
    exact hmulti
  have hpidmem : pid ∈ ((multiSeasonData df).map (fun o => o.player_id)).dedup := by
    rw [List.mem_dedup]
    exact List.mem_map.mpr ⟨o0, ho0msd, hpid0⟩
  refine ⟨_, List.mem_flatMap.mpr ⟨pid, hpidmem, hrmem⟩, rfl, rfl, ?_, ?_⟩
  · exact keyTotal_embed df hcons o0 ho0 hpid0 hmulti s'
  · exact keyTotal_embed df hcons o0 ho0 hpid0 hmulti s

/-- C4: over a table whose player ids carry a single display name and
position, (a) every valid year-over-year row belongs to a player-season
with an earlier observed season of the same player — a player's first
season never appears as a classified row (it is excluded, not treated as
delta 0); (b) when the prior total is nonzero, a row is classified breakout
iff its absolute delta exceeds 50 points and its percentage delta exceeds
25%, and bust iff the absolute delta is below -50 and the percentage delta
below -25%; (c) conversely every pair of adjacent seasons in a player's
ordered distinct-season data yields exactly such a row, carrying that
player's two season totals. -/
theorem trend_detector_correct (df : List Obs) (hcons : PidConsistent df) :
    (∀ r ∈ validChanges df,
        (∃ o ∈ df, o.player_id = r.player_id ∧ o.season < r.season) ∧
        (r.prev_season_points ≠ 0 →
          ((isBreakout r = true ↔
              50 < yoyChange r ∧ 25 < yoyChange r / r.prev_season_points * 100) ∧
            (isBust r = true ↔
              yoyChange r < -50 ∧ yoyChange r / r.prev_season_points * 100 < -25)))) ∧
    (∀ pid : String, ∀ i : ℕ, ∀ s' s : Int,
        (sortedSeasonsOf df pid)[i]? = some s' →
        (sortedSeasonsOf df pid)[i + 1]? = some s →
        ∃ r ∈ validChanges df, r.player_id = pid ∧ r.season = s ∧
          r.prev_season_points = seasonTotalQ df pid s' ∧
          r.fantasy_points_ppr = seasonTotalQ df pid s) := by
  constructor
  · intro r hr
    refine ⟨validChanges_has_prior df hcons r hr, ?_⟩
    intro hprev
    have hpct : yoyChangePct r = PVal.val (yoyChange r / r.prev_season_points * 100) := by
      unfold yoyChangePct fdiv
      rw [if_pos hprev]
      rfl
    constructor
    · unfold isBreakout
      rw [hpct]
      simp [PVal.gtQ]
    · unfold isBust
      rw [hpct]
      simp [PVal.ltQ]
  · intro pid i s' s h1 h2
    exact validChanges_complete df hcons pid i s' s h1 h2

/-- Witness for C4 at the spec's example player (season totals 100 then
160): the table is pid-consistent, 2020 and 2021 are adjacent in the
player's ordered seasons, and the theorem produces the corresponding
classified row. -/
theorem trend_detector_correct_witness :
    PidConsistent
        [(⟨"p1", "P", "QB", 2020, 1, 100⟩ : Obs), (⟨"p1", "P", "QB", 2021, 1, 160⟩ : Obs)] ∧
      (sortedSeasonsOf
          [(⟨"p1", "P", "QB", 2020, 1, 100⟩ : Obs), (⟨"p1", "P", "QB", 2021, 1, 160⟩ : Obs)]
          "p1")[0]? = some 2020 ∧
      (sortedSeasonsOf
          [(⟨"p1", "P", "QB", 2020, 1, 100⟩ : Obs), (⟨"p1", "P", "QB", 2021, 1, 160⟩ : Obs)]
          "p1")[1]? = some 2021 ∧
      ∃ r ∈ validChanges
          [(⟨"p1", "P", "QB", 2020, 1, 100⟩ : Obs), (⟨"p1", "P", "QB", 2021, 1, 160⟩ : Obs)],
        r.player_id = "p1" ∧ r.season = 2021 ∧
        r.prev_season_points =
          seasonTotalQ
            [(⟨"p1", "P", "QB", 2020, 1, 100⟩ : Obs), (⟨"p1", "P", "QB", 2021, 1, 160⟩ : Obs)]
            "p1" 2020 ∧
        r.fantasy_points_ppr =
          seasonTotalQ
            [(⟨"p1", "P", "QB", 2020, 1, 100⟩ : Obs), (⟨"p1", "P", "QB", 2021, 1, 160⟩ : Obs)]
            "p1" 2021 := by
  have hcons : PidConsistent
      [(⟨"p1", "P", "QB", 2020, 1, 100⟩ : Obs), (⟨"p1", "P", "QB", 2021, 1, 160⟩ : Obs)] := by
    intro o ho o' ho' _
    rcases List.mem_cons.mp ho with h | h
    · rcases List.mem_cons.mp ho' with h' | h'
      · rw [h, h']; exact ⟨rfl, rfl⟩
      · rw [List.mem_singleton] at h'
        rw [h, h']; exact ⟨rfl, rfl⟩
    · rw [List.mem_singleton] at h
      rcases List.mem_cons.mp ho' with h' | h'
      · rw [h, h']; exact ⟨rfl, rfl⟩
      · rw [List.mem_singleton] at h'
        rw [h, h']; exact ⟨rfl, rfl⟩
  have h1 : (sortedSeasonsOf
      [(⟨"p1", "P", "QB", 2020, 1, 100⟩ : Obs), (⟨"p1", "P", "QB", 2021, 1, 160⟩ : Obs)]
      "p1")[0]? = some 2020 := by
    simp [sortedSeasonsOf, playerSeasons, List.dedup, List.pwFilter, List.mergeSort]
  have h2 : (sortedSeasonsOf
      [(⟨"p1", "P", "QB", 2020, 1, 100⟩ : Obs), (⟨"p1", "P", "QB", 2021, 1, 160⟩ : Obs)]
      "p1")[1]? = some 2021 := by
    simp [sortedSeasonsOf, playerSeasons, List.dedup, List.pwFilter, List.mergeSort]
  exact ⟨hcons, h1, h2,
    (trend_detector_correct _ hcons).2 "p1" 0 2020 2021 h1 h2⟩

/-- Counterexample to C5 as stated: in a table where a player's prior
season total is zero and the next season's is 100, the code's percentage
delta is positive infinity — a present, non-missing value — and the row is
classified breakout, so the percentage delta does not propagate as a
missing value. -/
theorem trend_pct_zero_prior_counterexample :
    (⟨"p1", "P", "QB", 2021, 100, 0⟩ : YoyRow) ∈
        validChanges
          [(⟨"p1", "P", "QB", 2020, 1, 0⟩ : Obs), (⟨"p1", "P", "QB", 2021, 1, 100⟩ : Obs)] ∧
      (⟨"p1", "P", "QB", 2021, 100, 0⟩ : YoyRow).prev_season_points = 0 ∧
      yoyChangePct (⟨"p1", "P", "QB", 2021, 100, 0⟩ : YoyRow) = PVal.pinf ∧
      (yoyChangePct (⟨"p1", "P", "QB", 2021, 100, 0⟩ : YoyRow)).isNan = false ∧
      isBreakout (⟨"p1", "P", "QB", 2021, 100, 0⟩ : YoyRow) = true := by
  have hmem : (⟨"p1", "P", "QB", 2021, 100, 0⟩ : YoyRow) ∈
      validChanges
        [(⟨"p1", "P", "QB", 2020, 1, 0⟩ : Obs), (⟨"p1", "P", "QB", 2021, 1, 100⟩ : Obs)] := by
    simp [validChanges, playerYoyRows, playerKeysSorted, playerKeys, multiSeasonData,
      seasonCount, playerSeasons, keyOf, keyTotal, qsum, List.dedup, List.pwFilter,
      List.mergeSort]
  have hpct : yoyChangePct (⟨"p1", "P", "QB", 2021, 100, 0⟩ : YoyRow) = PVal.pinf := by
    unfold yoyChangePct yoyChange fdiv PVal.mulPos
    norm_num
  refine ⟨hmem, rfl, hpct, ?_, ?_⟩
  · rw [hpct]
    rfl
  · unfold isBreakout
    rw [hpct]
    unfold yoyChange PVal.gtQ
    norm_num

/-- C5 amended: for every valid-change row whose prior season total is
zero, the percentage delta is `+inf` when the change is positive, `-inf`
when negative, and `NaN` only when the change is also zero; an infinite
percentage still participates in classification (it passes the `> 25`
breakout comparison). -/
theorem trend_pct_zero_prior_amended (df : List Obs) (r : YoyRow)
    (_hr : r ∈ validChanges df) (h0 : r.prev_season_points = 0) :
    yoyChangePct r = (if 0 < yoyChange r then PVal.pinf
      else if yoyChange r < 0 then PVal.ninf else PVal.nan) ∧
    ((yoyChangePct r).isNan = true ↔ yoyChange r = 0) ∧
    (0 < yoyChange r → (yoyChangePct r).gtQ 25 = true) := by
  have hpct : yoyChangePct r = (if 0 < yoyChange r then PVal.pinf
      else if yoyChange r < 0 then PVal.ninf else PVal.nan) := by
    unfold yoyChangePct fdiv
    rw [h0]
    rw [if_neg (by norm_num : ¬ ((0 : ℚ) ≠ 0))]
    by_cases hpos : 0 < yoyChange r
    · rw [if_pos hpos]
      rfl
    · rw [if_neg hpos]
      by_cases hneg : yoyChange r < 0
      · rw [if_pos hneg]
        rfl
      · rw [if_neg hneg]
        rfl
  refine ⟨hpct, ?_, ?_⟩
  · rw [hpct]
    by_cases hpos : 0 < yoyChange r
    · rw [if_pos hpos]
      simp only [PVal.isNan, Bool.false_eq_true, false_iff]
      exact ne_of_gt hpos
    · rw [if_neg hpos]
      by_cases hneg : yoyChange r < 0
      · rw [if_pos hneg]
        simp only [PVal.isNan, Bool.false_eq_true, false_iff]
        exact ne_of_lt hneg
      · rw [if_neg hneg]
        simp only [PVal.isNan, true_iff]
        exact le_antisymm (not_lt.mp hpos) (not_lt.mp hneg)
  · intro hpos
    rw [hpct, if_pos hpos]
    rfl

/-- Witness for the amended C5 at the concrete zero-prior player: the row
is in the table, its prior total is zero, and its percentage delta is
`+inf`. -/
theorem trend_pct_zero_prior_amended_witness :
    (⟨"p1", "P", "QB", 2021, 100, 0⟩ : YoyRow) ∈
        validChanges
          [(⟨"p1", "P", "QB", 2020, 1, 0⟩ : Obs), (⟨"p1", "P", "QB", 2021, 1, 100⟩ : Obs)] ∧
      yoyChangePct (⟨"p1", "P", "QB", 2021, 100, 0⟩ : YoyRow) =
        (if 0 < yoyChange (⟨"p1", "P", "QB", 2021, 100, 0⟩ : YoyRow) then PVal.pinf
          else if yoyChange (⟨"p1", "P", "QB", 2021, 100, 0⟩ : YoyRow) < 0 then PVal.ninf
          else PVal.nan) := by
  have hmem : (⟨"p1", "P", "QB", 2021, 100, 0⟩ : YoyRow) ∈
      validChanges
        [(⟨"p1", "P", "QB", 2020, 1, 0⟩ : Obs), (⟨"p1", "P", "QB", 2021, 1, 100⟩ : Obs)] := by
    simp [validChanges, playerYoyRows, playerKeysSorted, playerKeys, multiSeasonData,
      seasonCount, playerSeasons, keyOf, keyTotal, qsum, List.dedup, List.pwFilter,
      List.mergeSort]
  exact ⟨hmem,
    (trend_pct_zero_prior_amended _ _ hmem rfl).1⟩

theorem filter_isBreakout_no_nan (l : List YoyRow) :
    (l.filter isBreakout).filter (fun a => !(yoyChangePct a).isNan) = l.filter isBreakout := by
  rw [List.filter_eq_self]
  intro a ha
  have hb := List.of_mem_filter ha
  simp only [isBreakout, Bool.and_eq_true] at hb
  have hgt : (yoyChangePct a).gtQ 25 = true := hb.2
  cases hpv : yoyChangePct a with
  | nan => rw [hpv] at hgt; cases hgt
  | val q => rfl
  | pinf => rfl
  | ninf => rfl

theorem filter_isBust_no_nan (l : List YoyRow) :
    (l.filter isBust).filter (fun a => !(yoyChangePct a).isNan) = l.filter isBust := by
  rw [List.filter_eq_self]
  intro a ha
  have hb := List.of_mem_filter ha
  simp only [isBust, Bool.and_eq_true] at hb
  have hlt : (yoyChangePct a).ltQ (-25) = true := hb.2
  cases hpv : yoyChangePct a with
  | nan => rw [hpv] at hlt; cases hlt
  | val q => rfl
  | pinf => rfl
  | ninf => rfl

theorem breakouts_length (df : List Obs) (pos : String) :
    (breakouts df pos).length = min ((posChanges df pos).filter isBreakout).length 10 := by
  unfold breakouts nlargestBy
  rw [filter_isBreakout_no_nan, List.length_take, List.length_mergeSort, Nat.min_comm]

theorem busts_length (df : List Obs) (pos : String) :
    (busts df pos).length = min ((posChanges df pos).filter isBust).length 10 := by
  unfold busts nsmallestBy
  rw [filter_isBust_no_nan, List.length_take, List.length_mergeSort, Nat.min_comm]

theorem rate_le_of_min (L : ℕ) (q : ℕ) (hL : 0 < L) :
    ((min q 10 : ℕ) : ℚ) / (L : ℚ) * 100 ≤ 10 / (L : ℚ) * 100 := by
  have hnum : ((min q 10 : ℕ) : ℚ) ≤ ((10 : ℕ) : ℚ) := Nat.cast_le.mpr (min_le_right _ _)
  have hLQ : (0 : ℚ) < (L : ℚ) := by exact_mod_cast hL
  have hdiv : ((min q 10 : ℕ) : ℚ) / (L : ℚ) ≤ ((10 : ℕ) : ℚ) / (L : ℚ) :=
    div_le_div_of_nonneg_right hnum hLQ.le
  calc ((min q 10 : ℕ) : ℚ) / (L : ℚ) * 100 ≤ ((10 : ℕ) : ℚ) / (L : ℚ) * 100 :=
        mul_le_mul_of_nonneg_right hdiv (by norm_num)
    _ = 10 / (L : ℚ) * 100 := by norm_num

/-- C10: the reported breakout and bust rates are computed from the
truncated top-10 and bottom-10 lists: for a position with at least one
valid year-over-year change, each rate equals
`min(#qualifying, 10) / #valid * 100`, and therefore never exceeds
`10 / #valid * 100` even when more than 10 player-seasons qualify. -/
theorem breakout_rate_truncated (df : List Obs) (pos : String)
    (h : posChanges df pos ≠ []) :
    breakoutRate df pos =
      ((min ((posChanges df pos).filter isBreakout).length 10 : ℕ) : ℚ) /
        ((posChanges df pos).length : ℚ) * 100 ∧
    breakoutRate df pos ≤ 10 / ((posChanges df pos).length : ℚ) * 100 ∧
    bustRate df pos =
      ((min ((posChanges df pos).filter isBust).length 10 : ℕ) : ℚ) /
        ((posChanges df pos).length : ℚ) * 100 ∧
    bustRate df pos ≤ 10 / ((posChanges df pos).length : ℚ) * 100 := by
  have hpos : 0 < (posChanges df pos).length := List.length_pos.mpr h
  have hbr : breakoutRate df pos =
      ((min ((posChanges df pos).filter isBreakout).length 10 : ℕ) : ℚ) /
        ((posChanges df pos).length : ℚ) * 100 := by
    unfold breakoutRate
    rw [if_pos hpos, breakouts_length]
  have hbu : bustRate df pos =
      ((min ((posChanges df pos).filter isBust).length 10 : ℕ) : ℚ) /
        ((posChanges df pos).length : ℚ) * 100 := by
    unfold bustRate
    rw [if_pos hpos, busts_length]
  refine ⟨hbr, ?_, hbu, ?_⟩
  · rw [hbr]
    exact rate_le_of_min _ _ hpos
  · rw [hbu]
    exact rate_le_of_min _ _ hpos

/-- Witness for C10 at a concrete table with one valid QB change: the
position's change list is nonempty and the rate identity holds there. -/
theorem breakout_rate_truncated_witness :
    posChanges
        [(⟨"p2", "R", "QB", 2020, 1, 100⟩ : Obs), (⟨"p2", "R", "QB", 2021, 1, 160⟩ : Obs)]
        "QB" ≠ [] ∧
      breakoutRate
          [(⟨"p2", "R", "QB", 2020, 1, 100⟩ : Obs), (⟨"p2", "R", "QB", 2021, 1, 160⟩ : Obs)]
          "QB" ≤
        10 / ((posChanges
          [(⟨"p2", "R", "QB", 2020, 1, 100⟩ : Obs), (⟨"p2", "R", "QB", 2021, 1, 160⟩ : Obs)]
          "QB").length : ℚ) * 100 := by
  have hne : posChanges
      [(⟨"p2", "R", "QB", 2020, 1, 100⟩ : Obs), (⟨"p2", "R", "QB", 2021, 1, 160⟩ : Obs)]
      "QB" ≠ [] := by
    simp [posChanges, validChanges, playerYoyRows, playerKeysSorted, playerKeys,
      multiSeasonData, seasonCount, playerSeasons, keyOf, keyTotal, qsum, List.dedup,
      List.pwFilter, List.mergeSort]
  exact ⟨hne, (breakout_rate_truncated _ "QB" hne).2.1⟩

theorem veteranAvg_zero_example :
    veteranAvg
      [(⟨"p1", "A", "QB", 2020, 1, 10⟩ : Obs), (⟨"p1", "A", "QB", 2021, 1, 0⟩ : Obs)]
      "QB" = some 0 := by
  simp [veteranAvg, veteranPosRows, listMean, qsum, isRookie, rookieSeason,
    playerSeasons, List.min?]

/-- Counterexample to C6 as stated: in a table whose only veteran
observation scores 0 points, the veteran average (the ratio's denominator)
is 0, yet the rookie-vs-veteran gap percentage evaluates to the present
value 0 — it is silently coerced to zero instead of propagating as a
missing value. -/
theorem undefined_ratio_counterexample :
    veteranAvg
        [(⟨"p1", "A", "QB", 2020, 1, 10⟩ : Obs), (⟨"p1", "A", "QB", 2021, 1, 0⟩ : Obs)]
        "QB" = some 0 ∧
      gapPercentage
        [(⟨"p1", "A", "QB", 2020, 1, 10⟩ : Obs), (⟨"p1", "A", "QB", 2021, 1, 0⟩ : Obs)]
        "QB" = some 0 ∧
      gapPercentage
        [(⟨"p1", "A", "QB", 2020, 1, 10⟩ : Obs), (⟨"p1", "A", "QB", 2021, 1, 0⟩ : Obs)]
        "QB" ≠ none := by
  have hgap : gapPercentage
      [(⟨"p1", "A", "QB", 2020, 1, 10⟩ : Obs), (⟨"p1", "A", "QB", 2021, 1, 0⟩ : Obs)]
      "QB" = some 0 := by
    unfold gapPercentage
    rw [veteranAvg_zero_example]
    norm_num
  refine ⟨veteranAvg_zero_example, hgap, ?_⟩
  rw [hgap]
  exact fun hc => Option.noConfusion hc

/-- C6 amended: when the veteran average is missing or not positive, the
gap percentage is the present value 0 (the `else 0` branch), not a missing
value; only a missing rookie average under a positive veteran average
propagates as missing. -/
theorem undefined_ratio_amended (df : List Obs) (pos : String)
    (h : veteranAvg df pos = none ∨ ∃ v, veteranAvg df pos = some v ∧ v ≤ 0) :
    gapPercentage df pos = some 0 := by
  unfold gapPercentage
  rcases h with h | ⟨v, hv, hv0⟩
  · rw [h]
  · rw [hv]
    exact if_neg (not_lt.mpr hv0)

/-- Witness for the amended C6 at the concrete zero-average veteran table:
the hypothesis holds with veteran average 0 and the gap percentage is the
present value 0. -/
theorem undefined_ratio_amended_witness :
    (veteranAvg
        [(⟨"p1", "A", "QB", 2020, 1, 10⟩ : Obs), (⟨"p1", "A", "QB", 2021, 1, 0⟩ : Obs)]
        "QB" = some 0 ∧ (0 : ℚ) ≤ 0) ∧
      gapPercentage
        [(⟨"p1", "A", "QB", 2020, 1, 10⟩ : Obs), (⟨"p1", "A", "QB", 2021, 1, 0⟩ : Obs)]
        "QB" = some 0 := by
  refine ⟨⟨veteranAvg_zero_example, le_refl 0⟩, ?_⟩
  exact undefined_ratio_amended _ _ (Or.inr ⟨0, veteranAvg_zero_example, le_refl 0⟩)

/-- C7 evaluated at its failing input: a player with two weekly
observations inside one single season of the trailing window passes the
scorer's filter (because `'season': 'count'` counts rows, not distinct
seasons), even though the player has only one distinct season in the
window — contradicting both the claim and the source's own label
`seasons_played` and comment "pelo menos 2 temporadas". -/
theorem draft_filter_counts_rows :
    (∃ m ∈ experiencedPlayers
        [(⟨"p3", "A", "RB", 2024, 1, 10⟩ : Obs), (⟨"p3", "A", "RB", 2024, 2, 12⟩ : Obs)]
        2024 "RB", m.player = "A" ∧ m.seasons_played = 2) ∧
      distinctSeasonsInWindow
        [(⟨"p3", "A", "RB", 2024, 1, 10⟩ : Obs), (⟨"p3", "A", "RB", 2024, 2, 12⟩ : Obs)]
        2024 "RB" "A" = 1 := by
  constructor
  · refine ⟨⟨"A", some 11, some 2, 22, 2⟩, ?_, rfl, rfl⟩
    simp [experiencedPlayers, playerMetrics, displayNames, posRows, nameRows, recentData,
      listMean, sampleVar, qsum, List.dedup, List.pwFilter]
    norm_num
  · simp [distinctSeasonsInWindow, nameRows, posRows, recentData, List.dedup, List.pwFilter]

/-- Counterexample to C9 as stated: on a frame lacking only the `week`
column, the consistency and breakout categories each succeed on their own,
but the summary aborts with the rookie category's error and reports
nothing for the remaining categories — one failing insight does abort the
computation of the others. -/
theorem error_isolation_counterexample :
    (∃ c, calcConsistencyInsights
        ⟨["player_id", "season", "position", "fantasy_points_ppr", "player_display_name"],
          [(⟨"p1", "A", "QB", 2020, 1, 10⟩ : Obs)]⟩ = .ok c) ∧
      (∃ b, calcBreakoutInsights
        ⟨["player_id", "season", "position", "fantasy_points_ppr", "player_display_name"],
          [(⟨"p1", "A", "QB", 2020, 1, 10⟩ : Obs)]⟩ = .ok b) ∧
      calcRookieInsights
        ⟨["player_id", "season", "position", "fantasy_points_ppr", "player_display_name"],
          [(⟨"p1", "A", "QB", 2020, 1, 10⟩ : Obs)]⟩ = .error "week" ∧
      displayInsightsSummary
        ⟨["player_id", "season", "position", "fantasy_points_ppr", "player_display_name"],
          [(⟨"p1", "A", "QB", 2020, 1, 10⟩ : Obs)]⟩ = .error "week" := by
  exact ⟨⟨_, rfl⟩, ⟨_, rfl⟩, rfl, rfl⟩

/-- C9 amended: `display_insights_summary` sequences the insight
computations with no exception handling, so whenever the rookie category
fails, the whole summary fails with that same error and the remaining
categories are not computed as part of the summary. -/
theorem error_isolation_amended (f : Frame) (e : String)
    (h : calcRookieInsights f = .error e) :
    displayInsightsSummary f = .error e := by
  unfold displayInsightsSummary
  rw [h]
  rfl

/-- Witness for the amended C9 at the week-less frame: the rookie category
fails with `KeyError: week` and the summary fails identically. -/
theorem error_isolation_amended_witness :
    calcRookieInsights
        ⟨["player_id", "season", "position", "fantasy_points_ppr", "player_display_name"],
          [(⟨"p1", "A", "QB", 2020, 1, 10⟩ : Obs)]⟩ = .error "week" ∧
      displayInsightsSummary
        ⟨["player_id", "season", "position", "fantasy_points_ppr", "player_display_name"],
          [(⟨"p1", "A", "QB", 2020, 1, 10⟩ : Obs)]⟩ = .error "week" := by
  exact ⟨rfl, error_isolation_amended _ _ rfl⟩

end NFLInsights
